import Mathlib

/-!
Verification of the transformation pipeline in src/task.ts of
etl-geonet-volcanocams (the `Task.control` method and its helpers).

Modelling conventions:
* JavaScript strings are Lean `String` values; character-level reasoning
  happens on `String.data` (a `List Char`).
* JavaScript numbers are modelled as `ℚ`.  Every numeric literal appearing
  in the claims has an exact decimal representation whose 6-decimal-place
  rounding agrees with the rounding of the nearest IEEE-754 double, so ℚ is
  an adequate model for the rounding facts proved here.
* A thrown JavaScript exception is an `Except.error` carrying the runtime's
  message.  `new Date(x).toISOString()` on an unparseable string throws
  `RangeError: Invalid time value`; the model uses the message
  "Invalid time value".
* `jsDateParse` models the ECMAScript date parser restricted to the
  ISO-style formats relevant to the feed: `YYYY-MM-DD`, optionally followed
  by `T` or a space, `HH:MM:SS`, an optional `.sss` fraction and an optional
  trailing `Z`.  The host timezone is UTC (the spec, section 4.3, directs
  implementers to treat offset-free date-times as UTC, matching the UTC
  deployment environment), so offset-free strings are read as UTC.  Strings
  containing characters outside this alphabet are rejected, as V8 rejects
  unknown timezone words.  V8's legacy formats (month names, parenthesised
  comments) are outside the modelled subset and map to `none`.
-/

deriving instance DecidableEq for Except

/-- Decimal value of a digit character, `none` for a non-digit. -/
def dig (c : Char) : Option Nat :=
  if c.isDigit then some (c.toNat - 48) else none

/-- Characters that can occur in the modelled ISO date-time alphabet. -/
def isIsoChar (c : Char) : Bool :=
  c.isDigit || c == '-' || c == ':' || c == '.' || c == 'T' || c == ' ' || c == 'Z'

/-- Leap-year test (proleptic Gregorian, as used by ECMAScript dates). -/
def isLeap (y : Nat) : Bool :=
  (y % 4 == 0 && y % 100 != 0) || y % 400 == 0

/-- Number of days in a month of a given year. -/
def daysInMonth (y m : Nat) : Nat :=
  if m == 2 then (if isLeap y then 29 else 28)
  else if m == 4 || m == 6 || m == 9 || m == 11 then 30
  else 31

/-- Milliseconds since the Unix epoch of a civil UTC date-time, via the
standard days-from-civil algorithm (the year is shifted by 400 so that all
intermediate arithmetic stays in `Nat`; 865565 = 719468 + 146097 days). -/
def epochMs (y mo da hh mi ss ms : Nat) : Int :=
  let yy := y + 400
  let y' := if mo ≤ 2 then yy - 1 else yy
  let era := y' / 400
  let yoe := y' - era * 400
  let mp := (mo + 9) % 12
  let doy := (153 * mp + 2) / 5 + (da - 1)
  let doe := yoe * 365 + yoe / 4 - yoe / 100 + doy
  let g := era * 146097 + doe
  ((g : Int) - 865565) * 86400000 +
    ((hh * 3600000 + mi * 60000 + ss * 1000 + ms : Nat) : Int)

/-- Optional millisecond fraction and optional trailing Z of a time string. -/
def parseMsZ : List Char → Option Nat
  | [] => some 0
  | ['Z'] => some 0
  | '.' :: a :: b :: c :: rest =>
    match dig a, dig b, dig c with
    | some x, some y, some z =>
      match rest with
      | [] => some (100 * x + 10 * y + z)
      | ['Z'] => some (100 * x + 10 * y + z)
      | _ => none
    | _, _, _ => none
  | _ => none

/-- Optional time-of-day part: empty, or a `T`/space separator followed by
`HH:MM:SS` with optional fraction and `Z`. -/
def parseTimePart : List Char → Option (Nat × Nat × Nat × Nat)
  | [] => some (0, 0, 0, 0)
  | sep :: rest =>
    if sep == 'T' || sep == ' ' then
      match rest with
      | a :: b :: ':' :: c :: d :: ':' :: e :: f :: rest2 =>
        match dig a, dig b, dig c, dig d, dig e, dig f with
        | some a', some b', some c', some d', some e', some f' =>
          match parseMsZ rest2 with
          | some ms => some (10 * a' + b', 10 * c' + d', 10 * e' + f', ms)
          | none => none
        | _, _, _, _, _, _ => none
      | _ => none
    else none

/-- Positional parse of `YYYY-MM-DD` followed by an optional time part,
with range validation of all components. -/
def parseIso (l : List Char) : Option Int :=
  match l with
  | a :: b :: c :: d :: '-' :: e :: f :: '-' :: g :: h :: rest =>
    match dig a, dig b, dig c, dig d, dig e, dig f, dig g, dig h with
    | some a', some b', some c', some d', some e', some f', some g', some h' =>
      let y := 1000 * a' + 100 * b' + 10 * c' + d'
      let mo := 10 * e' + f'
      let da := 10 * g' + h'
      match parseTimePart rest with
      | some (hh, mi, ss, ms) =>
        if 1 ≤ mo ∧ mo ≤ 12 ∧ 1 ≤ da ∧ da ≤ daysInMonth y mo ∧
            hh ≤ 23 ∧ mi ≤ 59 ∧ ss ≤ 59 then
          some (epochMs y mo da hh mi ss ms)
        else none
      | none => none
    | _, _, _, _, _, _, _, _ => none
  | _ => none

/-- Model of `new Date(string).getTime()` (see the module doc comment for
the modelled subset): `none` is an invalid date. -/
def jsDateParse (s : String) : Option Int :=
  if s.data.all isIsoChar then parseIso s.data else none

/-- Left-pad the decimal rendering of a number with zeros to a width. -/
def padNum (w n : Nat) : String :=
  let s := toString n
  String.mk (List.replicate (w - s.length) '0') ++ s

/-- Model of `Date.prototype.toISOString` for epoch milliseconds, via the
standard civil-from-days algorithm (years 0–9999, the range produced by the
modelled parser). -/
def toISOString (t : Int) : String :=
  let q := (Int.emod t 86400000).toNat
  let days := Int.ediv t 86400000
  let z := days + 719468
  let era := Int.ediv z 146097
  let doe := (z - era * 146097).toNat
  let yoe := (doe - doe / 1460 + doe / 36524 - doe / 146096) / 365
  let doy := doe - (365 * yoe + yoe / 4 - yoe / 100)
  let mp := (5 * doy + 2) / 153
  let da := doy - (153 * mp + 2) / 5 + 1
  let mo := if mp < 10 then mp + 3 else mp - 9
  let y : Int := era * 400 + (yoe : Int) + (if mo ≤ 2 then 1 else 0)
  padNum 4 y.toNat ++ "-" ++ padNum 2 mo ++ "-" ++ padNum 2 da ++ "T" ++
    padNum 2 (q / 3600000) ++ ":" ++ padNum 2 (q / 60000 % 60) ++ ":" ++
    padNum 2 (q / 1000 % 60) ++ "." ++ padNum 3 (q % 1000) ++ "Z"

/-- Model of `String.prototype.includes`: substring containment. -/
def containsS (s pat : String) : Bool :=
  decide (pat.data <:+: s.data)

/-- Trailing-suffix test (used by the specification's dispatch rule). -/
def endsWithS (s pat : String) : Bool :=
  decide (pat.data <:+ s.data)

/-- Model of `String.prototype.replace` with a string pattern: replace the
leftmost occurrence of `pat` (if any) with `repl`. -/
def replaceOnce (pat repl : List Char) : List Char → List Char
  | [] => []
  | c :: cs =>
    if pat <+: (c :: cs) then repl ++ (c :: cs).drop pat.length
    else c :: replaceOnce pat repl cs

/-- String-level wrapper for `replaceOnce`. -/
def replaceOnceStr (s pat repl : String) : String :=
  String.mk (replaceOnce pat.data repl.data s.data)

/-- Remove a trailing occurrence of `pat` from `s` (meaningful when `pat`
is a suffix of `s`); used to state the specification's suffix-stripping. -/
def dropSuffixStr (s pat : String) : String :=
  String.mk (s.data.take (s.data.length - pat.data.length))

/-- Parse a date-time string, shift the instant `shift` milliseconds into
the past, and render it; an unparseable string is the thrown
`RangeError: Invalid time value` of `toISOString` on an invalid date. -/
def parseShifted (s : String) (shift : Int) : Except String String :=
  match jsDateParse s with
  | none => .error "Invalid time value"
  | some t => .ok (toISOString (t - shift))

/-- Timestamp normalisation of src/task.ts lines 80–95: dispatch on
substring containment of "NZST"/"NZDT", strip the first occurrence of the
space-prefixed marker, parse, and subtract 12 (resp. 13) hours. -/
def normalizeTimestamp (s : String) : Except String String :=
  if containsS s "NZST" then
    parseShifted (replaceOnceStr s " NZST" "") (12 * 60 * 60 * 1000)
  else if containsS s "NZDT" then
    parseShifted (replaceOnceStr s " NZDT" "") (13 * 60 * 60 * 1000)
  else
    parseShifted s 0

/-- Scaled 6-decimal rounding used by `toFixed6`: the integer nearest to
`|q| * 10^6`, ties away from zero (the rounding of `Number.prototype.toFixed`,
which extracts the sign first and rounds the magnitude half-up).  Written in
integer arithmetic: `(2 * |num| * 10^6 + den) / (2 * den)` is the floor of
`|q| * 10^6 + 1/2`. -/
def toFixedScaled (q : ℚ) : Nat :=
  (2 * q.num.natAbs * 1000000 + q.den) / (2 * q.den)

/-- Model of `Number.prototype.toFixed(6)`. -/
def toFixed6 (q : ℚ) : String :=
  let n := toFixedScaled q
  (if q < 0 then "-" else "") ++ toString (n / 1000000) ++ "." ++ padNum 6 (n % 1000000)

/-- Model of ECMAScript number-to-string conversion (template literal
interpolation): exact for integers; non-integers are rendered from the first
17 fractional decimal digits with trailing zeros trimmed, which is exact for
every value with a terminating decimal expansion of at most 17 digits (all
values arising in this development). -/
def numStr (q : ℚ) : String :=
  if q.den = 1 then toString q.num
  else
    let n : Nat := q.num.natAbs * 100000000000000000 / q.den
    let frac := ((padNum 17 (n % 100000000000000000)).data.reverse.dropWhile
      (fun c => c == '0')).reverse
    (if q < 0 then "-" else "") ++ toString (n / 100000000000000000) ++
      (if frac.isEmpty then "" else "." ++ String.mk frac)

/-- Input camera record `properties` object (src/task.ts lines 20–26). -/
structure CameraProperties where
  title : String
  height : ℚ
  latestImageLarge : String
  latestTimestamp : String
  azimuth : ℚ
  deriving DecidableEq, Repr

/-- Input camera record geometry: a point whose coordinates arrive in
[latitude, longitude] order (src/task.ts lines 16–19). -/
structure CameraGeometry where
  coordinates : List ℚ
  deriving DecidableEq, Repr

/-- Input camera record (src/task.ts `CameraFeature`, lines 13–29). -/
structure CameraFeature where
  id : String
  geometry : CameraGeometry
  properties : CameraProperties
  volcanoId : List String
  volcanoTitle : List String
  deriving DecidableEq, Repr

/-- Input volcano group (src/task.ts `VolcanoGroup`, lines 31–34). -/
structure VolcanoGroup where
  features : List CameraFeature
  deriving DecidableEq, Repr

/-- Output `sensor` object (src/task.ts lines 106–114). -/
structure SensorData where
  elevation : ℚ
  vfov : ℚ
  north : ℚ
  roll : ℚ
  range : ℚ
  azimuth : ℚ
  fov : ℚ
  deriving DecidableEq, Repr

/-- Output link object (src/task.ts lines 116–122). -/
structure LinkData where
  uid : String
  relation : String
  mime : String
  url : String
  remarks : String
  deriving DecidableEq, Repr

/-- Output feature `properties` object (src/task.ts lines 99–131). -/
structure OutProperties where
  callsign : String
  cotType : String
  how : String
  icon : String
  time : String
  start : String
  sensor : SensorData
  markerColor : String
  links : List LinkData
  remarks : String
  deriving DecidableEq, Repr

/-- Output feature geometry (src/task.ts lines 132–135). -/
structure OutGeometry where
  geoType : String
  coordinates : List ℚ
  deriving DecidableEq, Repr

/-- Output feature (src/task.ts lines 96–136). -/
structure OutFeature where
  id : String
  featureType : String
  properties : OutProperties
  geometry : OutGeometry
  deriving DecidableEq, Repr

instance : Inhabited OutFeature :=
  ⟨⟨"", "", ⟨"", "", "", "", "", "", ⟨0, 0, 0, 0, 0, 0, 0⟩, "", [], ""⟩, ⟨"", []⟩⟩⟩

/-- Output feature collection (src/task.ts lines 140–143). -/
structure FeatureCollection where
  collectionType : String
  features : List OutFeature
  deriving DecidableEq, Repr

/-- Remarks text of src/task.ts lines 123–130: the six lines joined with
newlines ("\n"-join of the array literal, written here as one associatively
grouped concatenation so the Location line is an explicit middle chunk). -/
def remarksOf (camera : CameraFeature) (la lo : ℚ) : String :=
  ("Camera: " ++ camera.properties.title ++ "\n" ++
   "Volcano: " ++ String.intercalate ", " camera.volcanoTitle ++ "\n") ++
  ("Location: " ++ toFixed6 la ++ ", " ++ toFixed6 lo) ++
  ("\n" ++ "Height: " ++ numStr camera.properties.height ++ "m" ++ "\n" ++
   "Azimuth: " ++ numStr camera.properties.azimuth ++ "°" ++ "\n" ++
   "Last Updated: " ++ camera.properties.latestTimestamp)

/-- Per-camera mapping of src/task.ts lines 74–136.  The `now` parameter
models the `new Date().toISOString()` read on line 78, whose value the code
never uses.  A camera whose `coordinates` has fewer than two entries leaves
`lat`/`lon` undefined and the later `lat.toFixed(6)` throws a `TypeError`;
an unparseable timestamp throws first, matching the code's statement order
(timestamp conversion precedes the push that renders the remarks). -/
def mapCamera (now : String) (camera : CameraFeature) : Except String OutFeature :=
  match normalizeTimestamp camera.properties.latestTimestamp with
  | .error e => .error e
  | .ok cameraTime =>
    match camera.geometry.coordinates with
    | la :: lo :: _ =>
      let cameraUrl := "https://www.geonet.org.nz/volcano/cameras/" ++ camera.id
      .ok {
        id := "volcano-camera-" ++ camera.id
        featureType := "Feature"
        properties := {
          callsign := camera.properties.title
          cotType := "a-f-G-E-S"
          how := "m-g"
          icon := "ad78aafb-83a6-4c07-b2b9-a897a8b6a38f:Shapes/camera.png"
          time := cameraTime
          start := cameraTime
          sensor := {
            elevation := 0
            vfov := 45
            north := camera.properties.azimuth
            roll := 0
            range := 15000
            azimuth := camera.properties.azimuth
            fov := 45
          }
          markerColor := "rgb(25, 152, 123)"
          links := [{
            uid := "volcano-camera-" ++ camera.id ++ "-link"
            relation := "r-u"
            mime := "text/html"
            url := cameraUrl
            remarks := "View Camera"
          }]
          remarks := remarksOf camera la lo
        }
        geometry := {
          geoType := "Point"
          coordinates := [lo, la, camera.properties.height]
        }
      }
    | _ => .error "Cannot read properties of undefined"

/-- Inner loop of src/task.ts lines 74–137: map each camera of a group in
order, pushing each output feature onto the accumulator. -/
def foldCameras (f : CameraFeature → Except String OutFeature) :
    List CameraFeature → List OutFeature → Except String (List OutFeature)
  | [], acc => .ok acc
  | c :: cs, acc =>
    match f c with
    | .error e => .error e
    | .ok out => foldCameras f cs (acc ++ [out])

/-- Outer loop of src/task.ts lines 73–138: iterate the volcano groups in
order, threading the shared `features` accumulator. -/
def foldGroups (f : CameraFeature → Except String OutFeature) :
    List VolcanoGroup → List OutFeature → Except String (List OutFeature)
  | [], acc => .ok acc
  | g :: gs, acc =>
    match foldCameras f g.features acc with
    | .error e => .error e
    | .ok acc' => foldGroups f gs acc'

/-- The whole aggregation of src/task.ts lines 71–138, starting from the
empty `features` array. -/
def buildFeatures (now : String) (groups : List VolcanoGroup) :
    Except String (List OutFeature) :=
  foldGroups (mapCamera now) groups []

/-- All cameras of all groups, groups in input order and cameras within a
group in input order (the iteration order of the nested loops). -/
def allCameras : List VolcanoGroup → List CameraFeature
  | [] => []
  | g :: gs => g.features ++ allCameras gs

/-- In-order effectful map used to state order preservation: the list of
results when every element maps successfully, or the first error. -/
def mapExcept (f : CameraFeature → Except String OutFeature) :
    List CameraFeature → Except String (List OutFeature)
  | [] => .ok []
  | c :: cs =>
    match f c with
    | .error e => .error e
    | .ok out =>
      match mapExcept f cs with
      | .error e => .error e
      | .ok outs => .ok (out :: outs)

/-- Model of `env['Camera Proxy URL'].replace(/\/$/, '')` (line 59): drop a
single trailing slash if present. -/
def stripTrailingSlash (s : String) : String :=
  if s.endsWith "/" then s.dropRight 1 else s

/-- The HTTP response observed by `control`: status, status text, and the
result of `res.json()` (`none` models a JSON decode failure). -/
structure HttpResponse where
  status : Nat
  statusText : String
  body : Option (List VolcanoGroup)
  deriving Repr

/-- Model of the WHATWG fetch `Response.ok` flag: status in 200–299. -/
def resOk (r : HttpResponse) : Bool :=
  200 ≤ r.status && r.status ≤ 299

/-- An HTTP request issued by the task. -/
structure HttpRequest where
  method : String
  url : String
  deriving DecidableEq, Repr

/-- The fixed upstream URL of src/task.ts line 63. -/
def fetchUrl : String :=
  "http://images.geonet.org.nz/volcano/cameras/all.json"

/-- The requests issued by one invocation of `control`: the single
argumentless `fetch(url)` of line 64 (an HTTP GET, no retry loop). -/
def controlRequests : List HttpRequest :=
  [{ method := "GET", url := fetchUrl }]

/-- Model of `Task.control` (src/task.ts lines 56–150) after the fetch has
produced `res`: on success the result lists the `submit` calls performed
(the single call of line 145, carrying the whole collection); on failure the
error is the thrown message and no submit call occurs.  `proxyUrl` is the
`Camera Proxy URL` option and `now` the wall-clock reading; both are
consumed exactly as the code does. -/
def runControl (proxyUrl now : String) (res : HttpResponse) :
    Except String (List FeatureCollection) :=
  let _cameraProxyUrl := stripTrailingSlash proxyUrl
  if resOk res then
    match res.body with
    | none => .error "Unexpected token in JSON"
    | some groups =>
      match buildFeatures now groups with
      | .error e => .error e
      | .ok features =>
        .ok [{ collectionType := "FeatureCollection", features := features }]
  else
    .error ("Failed to fetch data: " ++ toString res.status ++ " " ++ res.statusText)

def testCam : CameraFeature :=
  { id := "WHWI"
    geometry := { coordinates := [mkRat (-39123456789) 1000000000, mkRat 175987654321 1000000000] }
    properties := { title := "West Dome", height := 150, latestImageLarge := "x.jpg"
                    latestTimestamp := "2024-01-15 10:00:00 NZST", azimuth := 90 }
    volcanoId := ["ruapehu"]
    volcanoTitle := ["Ruapehu"] }

/-! Helper lemmas about lists and the modelled string operations. -/

lemma infixOfSuffix {l₁ l₂ : List Char} (h : l₁ <:+ l₂) : l₁ <:+: l₂ := by
  obtain ⟨r, rfl⟩ := h
  exact ⟨r, [], by simp⟩

lemma infixOfPre {l₁ l₂ : List Char} (h : l₁ <+: l₂) : l₁ <:+: l₂ := by
  obtain ⟨t, rfl⟩ := h
  exact ⟨[], t, by simp⟩

lemma infixCons {l₁ l₂ : List Char} (a : Char) (h : l₁ <:+: l₂) : l₁ <:+: a :: l₂ := by
  obtain ⟨u, v, rfl⟩ := h
  exact ⟨a :: u, v, by simp⟩

lemma memOfSuffix {l₁ l₂ : List Char} {a : Char} (h : l₁ <:+ l₂) (ha : a ∈ l₁) : a ∈ l₂ := by
  obtain ⟨r, rfl⟩ := h
  exact List.mem_append.mpr (Or.inr ha)

lemma memOfInf {l₁ l₂ : List Char} {a : Char} (h : l₁ <:+: l₂) (ha : a ∈ l₁) : a ∈ l₂ := by
  obtain ⟨u, v, rfl⟩ := h
  exact List.mem_append.mpr (Or.inl (List.mem_append.mpr (Or.inr ha)))

lemma mem_replaceOnce (p : List Char) (a : Char) (hpa : a ∉ p) :
    ∀ s : List Char, a ∈ s → a ∈ replaceOnce p [] s := by
  intro s
  induction s with
  | nil => intro h; cases h
  | cons c cs ih =>
    intro hmem
    by_cases hp : p <+: (c :: cs)
    · rw [replaceOnce, if_pos hp]
      obtain ⟨t, ht⟩ := hp
      have hdrop : (c :: cs).drop p.length = t := by rw [← ht, List.drop_left]
      rw [List.nil_append, hdrop]
      rw [← ht] at hmem
      rcases List.mem_append.mp hmem with h | h
      · exact absurd h hpa
      · exact h
    · rw [replaceOnce, if_neg hp]
      rcases List.mem_cons.mp hmem with rfl | h
      · exact List.mem_cons_self _ _
      · exact List.mem_cons_of_mem _ (ih h)

lemma replaceOnce_suffix_cases (p : List Char) (hne : p ≠ [])
    (hov : ∀ a, a < p.length → 0 < a → p.drop a ≠ p.take (p.length - a)) :
    ∀ s : List Char, p <:+ s →
      replaceOnce p [] s = s.take (s.length - p.length) ∨
      (p <:+ replaceOnce p [] s ∧ p <:+: s.take (s.length - p.length)) := by
  intro s
  induction s with
  | nil =>
    intro h
    obtain ⟨r, hr⟩ := h
    exact absurd (List.append_eq_nil.mp hr).2 hne
  | cons c cs ih =>
    intro hsuf
    by_cases hp : p <+: (c :: cs)
    · rw [replaceOnce, if_pos hp, List.nil_append]
      obtain ⟨t, ht⟩ := hp
      obtain ⟨r, hr⟩ := hsuf
      have hlen : p.length + t.length = r.length + p.length := by
        have := congrArg List.length (ht.trans hr.symm)
        simpa using this
      have hrt : r.length = t.length := by omega
      rcases Nat.eq_zero_or_pos t.length with ht0 | htpos
      · left
        have ht' : t = [] := List.length_eq_zero.mp ht0
        subst ht'
        have hpc : p = c :: cs := by simpa using ht
        rw [← hpc, List.drop_length, Nat.sub_self, List.take_zero]
      · rcases Nat.lt_or_ge t.length p.length with hlt | hge
        · -- a proper self-overlap of the pattern, impossible
          exfalso
          have h3 : r ++ p = p ++ t := hr.trans ht.symm
          have h1 : p = p.drop t.length ++ t := by
            calc p = (r ++ p).drop r.length := (List.drop_left r p).symm
              _ = (p ++ t).drop r.length := by rw [h3]
              _ = p.drop r.length ++ t := List.drop_append_of_le_length (by omega)
              _ = p.drop t.length ++ t := by rw [hrt]
          have h4 : p.take (p.length - t.length) = p.drop t.length := by
            conv_lhs => rw [h1]
            exact List.take_left' (by simp)
          exact absurd h4.symm (hov t.length hlt htpos)
        · right
          have hdropt : (c :: cs).drop p.length = t := by rw [← ht, List.drop_left]
          have h3 : r ++ p = p ++ t := hr.trans ht.symm
          constructor
          · rw [hdropt]
            have htr : t = r.drop p.length ++ p := by
              calc t = (p ++ t).drop p.length := (List.drop_left p t).symm
                _ = (r ++ p).drop p.length := by rw [h3]
                _ = r.drop p.length ++ p := List.drop_append_of_le_length (by omega)
            exact ⟨r.drop p.length, htr.symm⟩
          · have hrlen : r.length + p.length = cs.length + 1 := by
              have := congrArg List.length hr
              simpa using this
            have hlen2 : (c :: cs).length - p.length = r.length := by simp; omega
            rw [hlen2, ← hr, List.take_left]
            have hpr : p = r.take p.length := by
              calc p = (p ++ t).take p.length := (List.take_left p t).symm
                _ = (r ++ p).take p.length := by rw [h3]
                _ = r.take p.length := List.take_append_of_le_length (by omega)
            refine infixOfPre ⟨r.drop p.length, ?_⟩
            nth_rewrite 1 [hpr]
            exact List.take_append_drop _ r
    · rw [replaceOnce, if_neg hp]
      rcases List.suffix_cons_iff.mp hsuf with heq | hsuf'
      · exact absurd (show p <+: c :: cs by rw [heq]) hp
      · have hplen : p.length ≤ cs.length := hsuf'.length_le
        rcases ih hsuf' with h1 | ⟨h1, h2⟩
        · left
          have hlen3 : (c :: cs).length - p.length = (cs.length - p.length) + 1 := by
            simp; omega
          rw [hlen3, List.take_succ_cons, h1]
        · right
          refine ⟨h1.trans (List.suffix_cons c _), ?_⟩
          have hlen3 : (c :: cs).length - p.length = (cs.length - p.length) + 1 := by
            simp; omega
          rw [hlen3, List.take_succ_cons]
          exact infixCons c h2

lemma endsWithS_iff {s p : String} : endsWithS s p = true ↔ p.data <:+ s.data := by
  unfold endsWithS
  exact decide_eq_true_iff

lemma containsS_iff {s p : String} : containsS s p = true ↔ p.data <:+: s.data := by
  unfold containsS
  exact decide_eq_true_iff

lemma jsDateParse_none_of_mem {s : String} {c : Char} (hc : c ∈ s.data)
    (hiso : isIsoChar c = false) : jsDateParse s = none := by
  unfold jsDateParse
  rw [if_neg]
  intro hall
  have := List.all_eq_true.mp hall c hc
  rw [hiso] at this
  cases this

lemma parseShifted_congr {a b : String} (h : jsDateParse a = jsDateParse b) (k : Int) :
    parseShifted a k = parseShifted b k := by
  unfold parseShifted
  rw [h]

lemma parseShifted_error_of_none {a : String} (h : jsDateParse a = none) (k : Int) :
    parseShifted a k = .error "Invalid time value" := by
  unfold parseShifted
  rw [h]

lemma parseShifted_error_msg {s : String} {k : Int} {e : String}
    (h : parseShifted s k = .error e) : e = "Invalid time value" := by
  unfold parseShifted at h
  cases hj : jsDateParse s with
  | none => rw [hj] at h; exact (Except.error.inj h).symm
  | some t => rw [hj] at h; cases h

lemma normalize_of_nzst_suffix (s : String) (h : endsWithS s " NZST" = true) :
    normalizeTimestamp s = parseShifted (dropSuffixStr s " NZST") (12 * 60 * 60 * 1000) := by
  have hsuf : (" NZST" : String).data <:+ s.data := endsWithS_iff.mp h
  have hc : containsS s "NZST" = true :=
    containsS_iff.mpr ((show ("NZST" : String).data <:+: (" NZST" : String).data by decide).trans
      (infixOfSuffix hsuf))
  unfold normalizeTimestamp
  rw [hc]
  simp only [if_true]
  rcases replaceOnce_suffix_cases (" NZST" : String).data (by decide) (by decide) s.data hsuf with
    heq | ⟨h1, h2⟩
  · apply parseShifted_congr
    show jsDateParse (String.mk (replaceOnce (" NZST" : String).data [] s.data)) = _
    rw [heq]
    rfl
  · have hn1 : 'N' ∈ replaceOnce (" NZST" : String).data [] s.data :=
      memOfSuffix h1 (by decide)
    have hn2 : 'N' ∈ s.data.take (s.data.length - (" NZST" : String).data.length) :=
      memOfInf h2 (by decide)
    rw [parseShifted_error_of_none (jsDateParse_none_of_mem (s := replaceOnceStr s " NZST" "")
      hn1 (by decide)),
      parseShifted_error_of_none (jsDateParse_none_of_mem (s := dropSuffixStr s " NZST")
      hn2 (by decide))]

lemma normalize_of_nzdt_suffix (s : String) (h : endsWithS s " NZDT" = true) :
    normalizeTimestamp s = parseShifted (dropSuffixStr s " NZDT") (13 * 60 * 60 * 1000) := by
  have hsuf : (" NZDT" : String).data <:+ s.data := endsWithS_iff.mp h
  obtain ⟨r, hr⟩ := hsuf
  cases hst : containsS s "NZST" with
  | true =>
    -- the NZST branch fires, but both sides are parse failures
    have hD : 'D' ∈ replaceOnce (" NZST" : String).data [] s.data :=
      mem_replaceOnce _ 'D' (by decide) s.data
        (memOfSuffix ⟨r, hr⟩ (by decide))
    have hS : 'S' ∈ s.data := memOfInf (containsS_iff.mp hst) (by decide)
    have hSr : 'S' ∈ r := by
      rw [← hr] at hS
      rcases List.mem_append.mp hS with h' | h'
      · exact h'
      · exact absurd h' (by decide)
    have hS2 : 'S' ∈ s.data.take (s.data.length - (" NZDT" : String).data.length) := by
      have htake : s.data.take (s.data.length - (" NZDT" : String).data.length) = r := by
        rw [← hr]
        have hl : (r ++ (" NZDT" : String).data).length - (" NZDT" : String).data.length
            = r.length := by simp
        rw [hl, List.take_left]
      rw [htake]
      exact hSr
    unfold normalizeTimestamp
    rw [hst]
    simp only [if_true]
    rw [parseShifted_error_of_none (jsDateParse_none_of_mem (s := replaceOnceStr s " NZST" "")
      hD (by decide)),
      parseShifted_error_of_none (jsDateParse_none_of_mem (s := dropSuffixStr s " NZDT")
      hS2 (by decide))]
  | false =>
    have hc : containsS s "NZDT" = true :=
      containsS_iff.mpr ((show ("NZDT" : String).data <:+: (" NZDT" : String).data by decide).trans
        (infixOfSuffix ⟨r, hr⟩))
    unfold normalizeTimestamp
    rw [hst, hc]
    simp only [Bool.false_eq_true, if_false, if_true]
    rcases replaceOnce_suffix_cases (" NZDT" : String).data (by decide) (by decide) s.data
      ⟨r, hr⟩ with heq | ⟨h1, h2⟩
    · apply parseShifted_congr
      show jsDateParse (String.mk (replaceOnce (" NZDT" : String).data [] s.data)) = _
      rw [heq]
      rfl
    · have hn1 : 'N' ∈ replaceOnce (" NZDT" : String).data [] s.data :=
        memOfSuffix h1 (by decide)
      have hn2 : 'N' ∈ s.data.take (s.data.length - (" NZDT" : String).data.length) :=
        memOfInf h2 (by decide)
      rw [parseShifted_error_of_none (jsDateParse_none_of_mem (s := replaceOnceStr s " NZDT" "")
        hn1 (by decide)),
        parseShifted_error_of_none (jsDateParse_none_of_mem (s := dropSuffixStr s " NZDT")
        hn2 (by decide))]

lemma normalize_error_msg {s e : String} (h : normalizeTimestamp s = .error e) :
    e = "Invalid time value" := by
  unfold normalizeTimestamp at h
  split at h
  · exact parseShifted_error_msg h
  · split at h
    · exact parseShifted_error_msg h
    · exact parseShifted_error_msg h

lemma foldCameras_eq (f : CameraFeature → Except String OutFeature)
    (cs : List CameraFeature) :
    ∀ acc : List OutFeature, foldCameras f cs acc =
      match mapExcept f cs with
      | .error e => .error e
      | .ok l => .ok (acc ++ l) := by
  induction cs with
  | nil => intro acc; simp [foldCameras, mapExcept]
  | cons c cs ih =>
    intro acc
    cases hf : f c with
    | error e => simp [foldCameras, mapExcept, hf]
    | ok out =>
      simp only [foldCameras, mapExcept, hf]
      rw [ih]
      cases mapExcept f cs <;> simp

lemma mapExcept_append (f : CameraFeature → Except String OutFeature)
    (l₁ l₂ : List CameraFeature) :
    mapExcept f (l₁ ++ l₂) =
      match mapExcept f l₁ with
      | .error e => .error e
      | .ok a =>
        match mapExcept f l₂ with
        | .error e => .error e
        | .ok b => .ok (a ++ b) := by
  induction l₁ with
  | nil =>
    simp only [List.nil_append, mapExcept]
    cases mapExcept f l₂ <;> rfl
  | cons c cs ih =>
    cases hf : f c with
    | error e => simp [mapExcept, hf]
    | ok out =>
      simp only [List.cons_append, mapExcept, hf, List.append_eq]
      conv_lhs => rw [ih]
      cases mapExcept f cs <;> cases mapExcept f l₂ <;> simp

lemma foldGroups_eq (f : CameraFeature → Except String OutFeature)
    (gs : List VolcanoGroup) :
    ∀ acc : List OutFeature, foldGroups f gs acc =
      match mapExcept f (allCameras gs) with
      | .error e => .error e
      | .ok l => .ok (acc ++ l) := by
  induction gs with
  | nil => intro acc; simp [foldGroups, allCameras, mapExcept]
  | cons g gs ih =>
    intro acc
    simp only [foldGroups, allCameras]
    rw [foldCameras_eq, mapExcept_append]
    cases mapExcept f g.features with
    | error e => rfl
    | ok l =>
      simp only [ih]
      cases mapExcept f (allCameras gs) <;> simp

lemma mapExcept_ok_length (f : CameraFeature → Except String OutFeature) :
    ∀ (cs : List CameraFeature) (out : List OutFeature),
      mapExcept f cs = .ok out → out.length = cs.length := by
  intro cs
  induction cs with
  | nil =>
    intro out h
    simp only [mapExcept] at h
    rw [← Except.ok.inj h]
    rfl
  | cons c cs ih =>
    intro out h
    simp only [mapExcept] at h
    cases hf : f c with
    | error e => rw [hf] at h; cases h
    | ok o =>
      rw [hf] at h
      cases hm : mapExcept f cs with
      | error e => rw [hm] at h; cases h
      | ok l =>
        rw [hm] at h
        rw [← Except.ok.inj h]
        simp [ih l hm]

lemma allCameras_length (gs : List VolcanoGroup) :
    (allCameras gs).length = (gs.map (fun g => g.features.length)).sum := by
  induction gs with
  | nil => rfl
  | cons g gs ih => simp [allCameras, ih]

lemma mapCamera_ok_shape {now : String} {camera : CameraFeature} {la lo : ℚ}
    {out : OutFeature} (hc : camera.geometry.coordinates = [la, lo])
    (h : mapCamera now camera = .ok out) :
    out.properties.remarks = remarksOf camera la lo ∧
    out.geometry = { geoType := "Point", coordinates := [lo, la, camera.properties.height] } := by
  unfold mapCamera at h
  cases hn : normalizeTimestamp camera.properties.latestTimestamp with
  | error e => rw [hn] at h; cases h
  | ok t =>
    rw [hn, hc] at h
    rw [← Except.ok.inj h]
    exact ⟨rfl, rfl⟩

lemma containsMiddle (pre mid post : String) : containsS (pre ++ mid ++ post) mid = true :=
  containsS_iff.mpr ⟨pre.data, post.data, by simp⟩

lemma toFixedScaled_rounds (q : ℚ) :
    |((toFixedScaled q : ℚ)) - |q| * 1000000| ≤ 1 / 2 := by
  have hd : 0 < q.den := q.pos
  have hdq : (0 : ℚ) < (q.den : ℚ) := by exact_mod_cast hd
  have h1 : toFixedScaled q * (2 * q.den) ≤ 2 * q.num.natAbs * 1000000 + q.den :=
    Nat.div_mul_le_self _ _
  have h2 : 2 * q.num.natAbs * 1000000 + q.den < (toFixedScaled q + 1) * (2 * q.den) :=
    (Nat.div_lt_iff_lt_mul (by omega)).mp (Nat.lt_succ_self (toFixedScaled q))
  have habs : |q| * 1000000 = (q.num.natAbs : ℚ) * 1000000 / (q.den : ℚ) := by
    have hq : |q| = (q.num.natAbs : ℚ) / (q.den : ℚ) := by
      conv_lhs => rw [← Rat.num_div_den q]
      rw [abs_div, abs_of_pos hdq, Int.cast_natAbs, Int.cast_abs]
    rw [hq]
    ring
  rw [habs]
  have h1q : (toFixedScaled q : ℚ) * (2 * (q.den : ℚ))
      ≤ 2 * (q.num.natAbs : ℚ) * 1000000 + (q.den : ℚ) := by
    exact_mod_cast h1
  have h2q : 2 * (q.num.natAbs : ℚ) * 1000000 + (q.den : ℚ)
      < ((toFixedScaled q : ℚ) + 1) * (2 * (q.den : ℚ)) := by
    exact_mod_cast h2
  rw [abs_le]
  constructor
  · have key : (q.num.natAbs : ℚ) * 1000000 / (q.den : ℚ)
        ≤ (toFixedScaled q : ℚ) + 1 / 2 := by
      rw [div_le_iff₀ hdq]
      nlinarith [h2q]
    linarith
  · have key : (toFixedScaled q : ℚ) - 1 / 2
        ≤ (q.num.natAbs : ℚ) * 1000000 / (q.den : ℚ) := by
      rw [le_div_iff₀ hdq]
      nlinarith [h1q]
    linarith

/-! Claim theorems. -/

/-- C1: the timestamp normaliser on a string ending in " NZST" strips the
suffix, parses the remainder as an offset-free date-time, and subtracts 12
hours; on a string ending in " NZDT" it strips that suffix and subtracts 13
hours; in particular "2024-06-01 10:00:00 NZST" yields
"2024-05-31T22:00:00.000Z" and "2024-01-15 10:00:00 NZDT" yields
"2024-01-14T21:00:00.000Z". -/
theorem claim1_timestamp_suffix_rule :
    (∀ s : String, endsWithS s " NZST" = true →
        normalizeTimestamp s
          = parseShifted (dropSuffixStr s " NZST") (12 * 60 * 60 * 1000)) ∧
    (∀ s : String, endsWithS s " NZDT" = true →
        normalizeTimestamp s
          = parseShifted (dropSuffixStr s " NZDT") (13 * 60 * 60 * 1000)) ∧
    normalizeTimestamp "2024-06-01 10:00:00 NZST" = .ok "2024-05-31T22:00:00.000Z" ∧
    normalizeTimestamp "2024-01-15 10:00:00 NZDT" = .ok "2024-01-14T21:00:00.000Z" :=
  ⟨normalize_of_nzst_suffix, normalize_of_nzdt_suffix, by decide, by decide⟩

/-- Witness for C1 at two concrete suffixed inputs. -/
theorem claim1_timestamp_suffix_rule_witness :
    normalizeTimestamp "2025-12-31 23:59:59 NZST"
      = parseShifted (dropSuffixStr "2025-12-31 23:59:59 NZST" " NZST") (12 * 60 * 60 * 1000) ∧
    normalizeTimestamp "2025-03-03 05:00:00 NZDT"
      = parseShifted (dropSuffixStr "2025-03-03 05:00:00 NZDT" " NZDT") (13 * 60 * 60 * 1000) :=
  ⟨claim1_timestamp_suffix_rule.1 _ (by decide),
   claim1_timestamp_suffix_rule.2.1 _ (by decide)⟩

/-- C2: on any successful run the output list has one feature per input
camera (its length is the sum of the group sizes), and it is exactly the
in-order mapping of the concatenated camera lists, so no camera is dropped,
duplicated, or reordered. -/
theorem claim2_output_complete (now : String) (groups : List VolcanoGroup)
    (out : List OutFeature) (h : buildFeatures now groups = .ok out) :
    out.length = (groups.map (fun g => g.features.length)).sum ∧
    mapExcept (mapCamera now) (allCameras groups) = .ok out := by
  unfold buildFeatures at h
  rw [foldGroups_eq] at h
  cases hm : mapExcept (mapCamera now) (allCameras groups) with
  | error e => rw [hm] at h; cases h
  | ok l =>
    rw [hm] at h
    have hl : l = out := by
      have := Except.ok.inj h
      simpa using this
    subst hl
    exact ⟨(mapExcept_ok_length (mapCamera now) (allCameras groups) l hm).trans
      (allCameras_length groups), rfl⟩

/-- Witness for C2 on a one-group, one-camera document. -/
theorem claim2_output_complete_witness :
    ((buildFeatures "tick" [{ features := [testCam] }]).toOption.getD []).length
        = ([({ features := [testCam] } : VolcanoGroup)].map
            (fun g => g.features.length)).sum ∧
    mapExcept (mapCamera "tick") (allCameras [{ features := [testCam] }])
        = .ok ((buildFeatures "tick" [{ features := [testCam] }]).toOption.getD []) :=
  claim2_output_complete "tick" _ _ (by decide)

/-- C3: a camera whose input coordinates are [latitude, longitude] maps to
a point feature with coordinates [longitude, latitude, height] — axes
swapped and the record's height appended. -/
theorem claim3_axis_swap (now : String) (camera : CameraFeature) (la lo : ℚ)
    (out : OutFeature) (hc : camera.geometry.coordinates = [la, lo])
    (h : mapCamera now camera = .ok out) :
    out.geometry = { geoType := "Point", coordinates := [lo, la, camera.properties.height] } :=
  (mapCamera_ok_shape hc h).2

/-- Witness for C3 on a concrete camera. -/
theorem claim3_axis_swap_witness :
    ((mapCamera "tick" testCam).toOption.getD default).geometry
      = { geoType := "Point",
          coordinates := [mkRat 175987654321 1000000000, mkRat (-39123456789) 1000000000,
            testCam.properties.height] } :=
  claim3_axis_swap "tick" testCam _ _ _ rfl (by decide)

/-- C4 counterexample: the claim says dispatch is on the trailing token, so
"2024-01-15T10:00:00 NZSTZ" (trailing token "NZSTZ") should be parsed as an
ordinary date-time and fail; the code keys on substring containment and
instead produces a value.  Also the thrown error message for an unparseable
input is the constant "Invalid time value", which does not name the input. -/
theorem claim4_counterexample :
    endsWithS "2024-01-15T10:00:00 NZSTZ" " NZST" = false ∧
    endsWithS "2024-01-15T10:00:00 NZSTZ" " NZDT" = false ∧
    jsDateParse "2024-01-15T10:00:00 NZSTZ" = none ∧
    normalizeTimestamp "2024-01-15T10:00:00 NZSTZ" = .ok "2024-01-14T22:00:00.000Z" ∧
    normalizeTimestamp "not-a-date" = .error "Invalid time value" ∧
    containsS "Invalid time value" "not-a-date" = false := by
  decide

/-- C4 amended: a timestamp string containing neither "NZST" nor "NZDT" is
treated as an ordinary date-time string whose parse failure surfaces as a
thrown error (never an Invalid Date sentinel value); every error the
normaliser throws has the constant message "Invalid time value", which does
not name the offending input; the empty string fails this way. -/
theorem claim4_error_surfacing :
    (∀ s : String, containsS s "NZST" = false → containsS s "NZDT" = false →
        normalizeTimestamp s = parseShifted s 0) ∧
    (∀ s e : String, normalizeTimestamp s = .error e → e = "Invalid time value") ∧
    normalizeTimestamp "" = .error "Invalid time value" := by
  refine ⟨?_, ?_, by decide⟩
  · intro s h1 h2
    unfold normalizeTimestamp
    rw [h1, h2]
    simp
  · intro s e h
    exact normalize_error_msg h

/-- Witness for C4 (amended) at a concrete unparseable input. -/
theorem claim4_error_surfacing_witness :
    normalizeTimestamp "never-valid" = parseShifted "never-valid" 0 :=
  claim4_error_surfacing.1 "never-valid" (by decide) (by decide)

/-- C5: a non-2xx response makes the run fail with the fetch error carrying
the status code and status text, and no submission occurs. -/
theorem claim5_fetch_error (proxyUrl now : String) (res : HttpResponse)
    (h : ¬ (200 ≤ res.status ∧ res.status ≤ 299)) :
    runControl proxyUrl now res =
      .error ("Failed to fetch data: " ++ toString res.status ++ " " ++ res.statusText) ∧
    ∀ subs : List FeatureCollection, runControl proxyUrl now res ≠ .ok subs := by
  have hok : ¬ (resOk res = true) := by
    simp only [resOk, Bool.and_eq_true, decide_eq_true_iff]
    exact fun hc => h ⟨hc.1, hc.2⟩
  have heq : runControl proxyUrl now res =
      .error ("Failed to fetch data: " ++ toString res.status ++ " " ++ res.statusText) := by
    simp only [runControl]
    rw [if_neg hok]
  exact ⟨heq, fun subs hc => by rw [heq] at hc; cases hc⟩

/-- Witness for C5 at a concrete 503 response. -/
theorem claim5_fetch_error_witness :
    runControl "proxy" "tick"
        { status := 503, statusText := "Service Unavailable", body := some [] }
      = .error ("Failed to fetch data: " ++ toString (503 : Nat) ++ " " ++ "Service Unavailable") ∧
    ∀ subs : List FeatureCollection,
      runControl "proxy" "tick"
          { status := 503, statusText := "Service Unavailable", body := some [] }
        ≠ .ok subs :=
  claim5_fetch_error "proxy" "tick" _ (by decide)

/-- C6 counterexample: the claimed output "2023-01-14T22:00:00.000Z" has
the wrong year; the code maps "2024-01-15 10:00:00 NZST" to a 2024 instant. -/
theorem claim6_counterexample :
    normalizeTimestamp "2024-01-15 10:00:00 NZST" ≠ .ok "2023-01-14T22:00:00.000Z" := by
  decide

/-- C6 amended: "2024-01-15 10:00:00 NZST" maps to "2024-01-14T22:00:00.000Z". -/
theorem claim6_amended :
    normalizeTimestamp "2024-01-15 10:00:00 NZST" = .ok "2024-01-14T22:00:00.000Z" := by
  decide

/-- C7: the pipeline output is a function of the upstream response alone —
runs with different `Camera Proxy URL` values and different wall-clock
readings produce identical results. -/
theorem claim7_deterministic (p₁ p₂ n₁ n₂ : String) (res : HttpResponse) :
    runControl p₁ n₁ res = runControl p₂ n₂ res := rfl

/-- C8: on a successful run the submit collaborator is called exactly once
with the entire collection; an empty group list still submits once, with an
empty feature collection. -/
theorem claim8_submit_once :
    (∀ (proxyUrl now : String) (res : HttpResponse) (groups : List VolcanoGroup)
        (features : List OutFeature),
        resOk res = true → res.body = some groups →
        buildFeatures now groups = .ok features →
        runControl proxyUrl now res
          = .ok [{ collectionType := "FeatureCollection", features := features }]) ∧
    (∀ (proxyUrl now : String) (res : HttpResponse),
        resOk res = true → res.body = some [] →
        runControl proxyUrl now res
          = .ok [{ collectionType := "FeatureCollection",
                   features := ([] : List OutFeature) }]) := by
  have main : ∀ (proxyUrl now : String) (res : HttpResponse) (groups : List VolcanoGroup)
      (features : List OutFeature),
      resOk res = true → res.body = some groups → buildFeatures now groups = .ok features →
      runControl proxyUrl now res
        = .ok [{ collectionType := "FeatureCollection", features := features }] := by
    intro proxyUrl now res groups features hok hbody hbuild
    simp [runControl, hok, hbody, hbuild]
  exact ⟨main, fun proxyUrl now res hok hbody =>
    main proxyUrl now res [] [] hok hbody rfl⟩

/-- Witness for C8 at a concrete 200 response with an empty group list. -/
theorem claim8_submit_once_witness :
    runControl "proxy" "tick" { status := 200, statusText := "OK", body := some [] }
      = .ok [{ collectionType := "FeatureCollection", features := ([] : List OutFeature) }] :=
  claim8_submit_once.2 "proxy" "tick" _ (by decide) rfl

/-- C9 counterexample: the claim fixes the URL as the https variant; the
code's single GET goes to the http URL, so the claimed request list is not
the one issued. -/
theorem claim9_counterexample :
    controlRequests
      ≠ [{ method := "GET", url := "https://images.geonet.org.nz/volcano/cameras/all.json" }] := by
  decide

/-- C9 amended: one invocation issues exactly one HTTP GET, with no
retries, to the fixed URL http://images.geonet.org.nz/volcano/cameras/all.json. -/
theorem claim9_amended :
    controlRequests
      = [{ method := "GET", url := "http://images.geonet.org.nz/volcano/cameras/all.json" }] :=
  rfl

/-- C10: every output feature's remarks text contains the Location line
rendering latitude then longitude, each through the 6-decimal-place
`toFixed` formatter; that formatter rounds to the nearest multiple of
10⁻⁶ (half away from zero), and on the claim's concrete coordinates it
produces "-39.123457" and "175.987654". -/
theorem claim10_remarks_rounding :
    (∀ (now : String) (camera : CameraFeature) (la lo : ℚ) (out : OutFeature),
        camera.geometry.coordinates = [la, lo] → mapCamera now camera = .ok out →
        containsS out.properties.remarks
          ("Location: " ++ toFixed6 la ++ ", " ++ toFixed6 lo) = true) ∧
    (∀ q : ℚ, |((toFixedScaled q : ℚ)) - |q| * 1000000| ≤ 1 / 2) ∧
    toFixed6 (mkRat (-39123456789) 1000000000) = "-39.123457" ∧
    toFixed6 (mkRat 175987654321 1000000000) = "175.987654" := by
  refine ⟨?_, toFixedScaled_rounds, by decide, by decide⟩
  intro now camera la lo out hc h
  rw [(mapCamera_ok_shape hc h).1]
  unfold remarksOf
  exact containsMiddle _ _ _

/-- Witness for C10 on a concrete camera at the claim's coordinates. -/
theorem claim10_remarks_rounding_witness :
    containsS ((mapCamera "tick" testCam).toOption.getD default).properties.remarks
      ("Location: " ++ toFixed6 (mkRat (-39123456789) 1000000000) ++ ", "
        ++ toFixed6 (mkRat 175987654321 1000000000)) = true :=
  claim10_remarks_rounding.1 "tick" testCam _ _ _ rfl (by decide)
